import Mathlib

/-!
Shallow embedding of the NRI validation-policy engine
(`pkg/api/restrictions.go`, the policy/config files of `pkg/api`).

Go strings are modelled as lists of characters (`Str`); the Go standard
helpers `strings.HasPrefix`, `strings.HasSuffix`, `strings.TrimPrefix`,
`strings.TrimSuffix` and `strings.Contains` (with a one-character needle)
are modelled structurally below.  Go slices become `List`, nil-able
pointers become `Option`, maps become association lists, and fallible
functions return `Except` with a structured error type mirroring each
`fmt.Errorf` site of the source.
-/

namespace NRI

/-- Go `string`, as a list of characters. -/
abbrev Str : Type := List Char

/-- Conversion of a Lean string literal into the `Str` model. -/
def strLit (s : String) : Str := s.toList

/-- Go `strings.HasPrefix(s, pre)`. -/
def hasPre (s p : Str) : Bool := p.isPrefixOf s

/-- Go `strings.HasSuffix(s, suf)`. -/
def hasSuf (s p : Str) : Bool := p.isSuffixOf s

/-- Go `strings.TrimSuffix(s, suf)`. -/
def trimSuf (s p : Str) : Str := if hasSuf s p then s.take (s.length - p.length) else s

/-- Go `strings.TrimPrefix(s, pre)`. -/
def trimPre (s p : Str) : Str := if hasPre s p then s.drop p.length else s

/-- Go `strings.Contains(s, c)` for a one-character needle `c`. -/
def strContains (s : Str) (c : Char) : Bool := s.contains c

/-- The one-character pattern and trim argument `"*"` used by `globMatch`. -/
def star : Str := strLit "*"

/-- Embedding of `globMatch` (identical in `restrictions.go` and the policy
file): `"*"` matches everything; otherwise, if the pattern contains `*`,
a trailing `*` triggers a prefix test, else a leading `*` triggers a
suffix test; everything else falls through to exact equality. -/
def globMatch (pattern str : Str) : Bool :=
  if pattern = star then
    true
  else if strContains pattern '*' then
    if hasSuf pattern star then hasPre str (trimSuf pattern star)
    else if hasPre pattern star then hasSuf str (trimPre pattern star)
    else pattern = str
  else pattern = str

/-! ## Policy engine data model (second Go file of `pkg/api`) -/

/-- Embedding of `PolicySubject`. -/
structure PolicySubject where
  kind : Str
  name : Str
deriving DecidableEq, Repr

/-- Embedding of `PolicyRule`. -/
structure PolicyRule where
  namespaces : List Str
  plugins : List Str
  subjects : List PolicySubject
deriving DecidableEq, Repr

/-- Embedding of `NRIValidationPolicySpec`. -/
structure NRIValidationPolicySpec where
  defaultDeny : Bool
  rules : List PolicyRule
deriving DecidableEq, Repr

/-- Embedding of `ValidationContext`.  The Go field `PodNamespace` keeps its
name; `Namespace` is not used as a field name anywhere in this record. -/
structure ValidationContext where
  subject : Option PolicySubject
  podNamespace : Str
  podName : Str
  pluginName : Str
deriving DecidableEq, Repr

/-- Embedding of `PolicyBasedValidator.namespaceMatches`: the namespace
matches when some pattern in the list glob-matches it. -/
def namespaceMatches (ns : Str) (patterns : List Str) : Bool :=
  patterns.any (fun pattern => globMatch pattern ns)

/-- Embedding of `PolicyBasedValidator.findMatchingRules`. -/
def findMatchingRules (policy : NRIValidationPolicySpec) (ns : Str) : List PolicyRule :=
  policy.rules.filter (fun rule => namespaceMatches ns rule.namespaces)

/-- Embedding of `PolicyBasedValidator.pluginAllowed`. -/
def pluginAllowed (pluginName : Str) (allowedPlugins : List Str) : Bool :=
  allowedPlugins.any (fun allowed => globMatch allowed pluginName)

/-- Embedding of `PolicyBasedValidator.subjectAllowed`: a nil subject is
never allowed; otherwise some allowed subject must agree on kind and name. -/
def subjectAllowed (subject : Option PolicySubject) (allowedSubjects : List PolicySubject) : Bool :=
  match subject with
  | none => false
  | some s => allowedSubjects.any (fun allowed => s.kind == allowed.kind && s.name == allowed.name)

/-- Errors of `PolicyBasedValidator.validatePluginAccess`, one constructor
per `fmt.Errorf` site. -/
inductive AccessErr where
  /-- Message "access denied: no matching rules found and defaultDeny is true" -/
  | noMatchingRules
  /-- Message "access denied: no rule allows this subject/plugin combination" -/
  | noRuleGrants
deriving DecidableEq, Repr

/-- Embedding of `PolicyBasedValidator.validatePluginAccess`.  The Go
method reads only `pv.policy`, which is passed here directly; the loop
returning `nil` on the first granting rule is the `List.any` test. -/
def validatePluginAccess (policy : NRIValidationPolicySpec) (ctx : ValidationContext) :
    Except AccessErr Unit :=
  let matchingRules := findMatchingRules policy ctx.podNamespace
  if matchingRules.isEmpty then
    if policy.defaultDeny then .error .noMatchingRules else .ok ()
  else if matchingRules.any (fun rule =>
      pluginAllowed ctx.pluginName rule.plugins && subjectAllowed ctx.subject rule.subjects) then
    .ok ()
  else if policy.defaultDeny then .error .noRuleGrants else .ok ()

/-! ## Restrictions engine data model (`pkg/api/restrictions.go`) -/

/-- Go constant `RestrictionAllow` (the string "allow"); `RestrictionAction`
is a string type in the source, so it stays `Str` here. -/
def RestrictionAllow : Str := strLit "allow"

/-- Go constant `RestrictionDeny` (the string "deny"). -/
def RestrictionDeny : Str := strLit "deny"

/-- The `MutationCapability` string constants of `restrictions.go`. -/
def MutationAnnotations : Str := strLit "annotations"

/-- Capability constant "mounts". -/
def MutationMounts : Str := strLit "mounts"

/-- Capability constant "args". -/
def MutationArgs : Str := strLit "args"

/-- Capability constant "env". -/
def MutationEnv : Str := strLit "env"

/-- Capability constant "hooks". -/
def MutationHooks : Str := strLit "hooks"

/-- Capability constant "rlimits". -/
def MutationRlimits : Str := strLit "rlimits"

/-- Capability constant "devices". -/
def MutationDevices : Str := strLit "devices"

/-- Capability constant "resources". -/
def MutationResources : Str := strLit "resources"

/-- Capability constant "seccomp". -/
def MutationSeccomp : Str := strLit "seccomp"

/-- Capability constant "namespaces". -/
def MutationNamespaces : Str := strLit "namespaces"

/-- Capability constant "memory". -/
def MutationMemory : Str := strLit "memory"

/-- Capability constant "cpu". -/
def MutationCPU : Str := strLit "cpu"

/-- Capability constant "blockio". -/
def MutationBlockio : Str := strLit "blockio"

/-- Capability constant "rdt". -/
def MutationRDT : Str := strLit "rdt"

/-- Capability constant "unified". -/
def MutationUnified : Str := strLit "unified"

/-- Embedding of `PodSelector`. -/
structure PodSelector where
  namespaces : List Str
  labels : List (Str × Str)
  names : List Str
deriving DecidableEq, Repr

/-- Embedding of `MutationRestriction`; `Action` is a Go string. -/
structure MutationRestriction where
  action : Str
  capabilities : List Str
deriving DecidableEq, Repr

/-- Embedding of `PodRestriction`. -/
structure PodRestriction where
  action : Str
  selector : PodSelector
deriving DecidableEq, Repr

/-- Embedding of `PluginRestriction`. -/
structure PluginRestriction where
  pluginPattern : Str
  mutationRestrictions : List MutationRestriction
  podRestrictions : List PodRestriction
deriving DecidableEq, Repr

/-- Embedding of `RestrictionsConfig`. -/
structure RestrictionsConfig where
  defaultAction : Str
  globalRestrictions : List MutationRestriction
  pluginRestrictions : List PluginRestriction
  globalPodRestrictions : List PodRestriction
deriving DecidableEq, Repr

/-- Embedding of `PodSandbox` restricted to the accessors this code uses
(`GetNamespace`, `GetName`, `GetLabels`); the namespace field is `ns`
because `namespace` is a Lean keyword. -/
structure PodSandbox where
  ns : Str
  name : Str
  labels : List (Str × Str)
deriving DecidableEq, Repr

/-- Embedding of the NRI `LinuxContainerResources` fields read by
`extractMutationCapabilities`.  `Memory` and `Cpu` are nil-able pointers
whose contents are never inspected, so they carry `Unit`; `BlockioClass`
and `RdtClass` are optional-string wrappers whose `GetValue()` is compared
with the empty string. -/
structure LinuxContainerResources where
  memory : Option Unit
  cpu : Option Unit
  blockioClass : Option Str
  rdtClass : Option Str
  unified : List (Str × Str)
deriving DecidableEq, Repr

/-- Embedding of the `LinuxContainerAdjustment` fields read by
`extractMutationCapabilities`; only the lengths of `Devices` and
`Namespaces` are inspected, so their elements carry `Unit`. -/
structure LinuxContainerAdjustment where
  devices : List Unit
  resources : Option LinuxContainerResources
  namespaces : List Unit
deriving DecidableEq, Repr

/-- Embedding of the `ContainerAdjustment` fields read by
`extractMutationCapabilities`.  Only emptiness of `Mounts`, `Env` and
`Rlimits` is inspected, so their elements carry `Unit`; `Hooks` is a
nil-able pointer whose contents are never inspected.  There is no seccomp
field: the source notes "SeccompProfile is only in LinuxContainer, not
LinuxContainerAdjustment". -/
structure ContainerAdjustment where
  annotations : List (Str × Str)
  mounts : List Unit
  args : List Str
  env : List Unit
  hooks : Option Unit
  rlimits : List Unit
  linux : Option LinuxContainerAdjustment
deriving DecidableEq, Repr

/-- GetValue-style test: `o != nil && o.GetValue() != ""`. -/
def optValNonEmpty (o : Option Str) : Bool :=
  match o with
  | some v => !v.isEmpty
  | none => false

/-- Embedding of `RestrictionsValidator.extractMutationCapabilities`:
each slice/map field contributes its capability when non-empty, each
pointer field when non-nil, in the source's append order; a nil
adjustment yields the empty list.  `MutationSeccomp` is never appended. -/
def extractMutationCapabilities (adjust : Option ContainerAdjustment) : List Str :=
  match adjust with
  | none => []
  | some a =>
    (if !a.annotations.isEmpty then [MutationAnnotations] else []) ++
    (if !a.mounts.isEmpty then [MutationMounts] else []) ++
    (if !a.args.isEmpty then [MutationArgs] else []) ++
    (if !a.env.isEmpty then [MutationEnv] else []) ++
    (if a.hooks.isSome then [MutationHooks] else []) ++
    (if !a.rlimits.isEmpty then [MutationRlimits] else []) ++
    (match a.linux with
     | none => []
     | some linux =>
       (if !linux.devices.isEmpty then [MutationDevices] else []) ++
       (match linux.resources with
        | none => []
        | some res =>
          [MutationResources] ++
          (if res.memory.isSome then [MutationMemory] else []) ++
          (if res.cpu.isSome then [MutationCPU] else []) ++
          (if optValNonEmpty res.blockioClass then [MutationBlockio] else []) ++
          (if optValNonEmpty res.rdtClass then [MutationRDT] else []) ++
          (if !res.unified.isEmpty then [MutationUnified] else [])) ++
       (if !linux.namespaces.isEmpty then [MutationNamespaces] else []))

/-- Raw errors of the restriction checks, one constructor per
`fmt.Errorf` site of `checkMutationRestriction` / `checkPodRestriction`. -/
inductive RErr where
  /-- Message "mutation capability %s not in allowlist" -/
  | capNotInAllowlist (cap : Str)
  /-- Message "mutation capability %s is denied" -/
  | capDenied (cap : Str)
  /-- Message "pod not in allowlist" -/
  | podNotInAllowlist
  /-- Message "pod is in denylist" -/
  | podInDenylist
deriving DecidableEq, Repr

/-- Embedding of `RestrictionsValidator.checkMutationRestriction`: an
allowlist fails on the first capability outside the list, a denylist on
the first capability inside it; any other action string falls through the
switch and passes. -/
def checkMutationRestriction (r : MutationRestriction) (capabilities : List Str) :
    Except RErr Unit :=
  if r.action = RestrictionAllow then
    match capabilities.find? (fun c => !(r.capabilities.contains c)) with
    | some c => .error (.capNotInAllowlist c)
    | none => .ok ()
  else if r.action = RestrictionDeny then
    match capabilities.find? (fun c => r.capabilities.contains c) with
    | some c => .error (.capDenied c)
    | none => .ok ()
  else
    .ok ()

/-- Embedding of `RestrictionsValidator.podMatches`: each non-empty
selector field must be satisfied (namespace and name by some glob pattern,
labels by exact lookup of every entry). -/
def podMatches (selector : PodSelector) (pod : PodSandbox) : Bool :=
  (selector.namespaces.isEmpty || selector.namespaces.any (fun p => globMatch p pod.ns)) &&
  (selector.labels.isEmpty ||
    selector.labels.all (fun kv => pod.labels.lookup kv.1 == some kv.2)) &&
  (selector.names.isEmpty || selector.names.any (fun p => globMatch p pod.name))

/-- Embedding of `RestrictionsValidator.checkPodRestriction`. -/
def checkPodRestriction (r : PodRestriction) (pod : PodSandbox) : Except RErr Unit :=
  if r.action = RestrictionAllow then
    if !podMatches r.selector pod then .error .podNotInAllowlist else .ok ()
  else if r.action = RestrictionDeny then
    if podMatches r.selector pod then .error .podInDenylist else .ok ()
  else
    .ok ()

/-- Embedding of `RestrictionsValidator.findPluginRestrictions`. -/
def findPluginRestrictions (cfg : RestrictionsConfig) (pluginName : Str) :
    List PluginRestriction :=
  cfg.pluginRestrictions.filter (fun r => globMatch r.pluginPattern pluginName)

/-- First-failure loop over a list of mutation restrictions, as in the
`for _, restriction := range ...` loops of `validatePluginMutations`. -/
def checkMutList : List MutationRestriction → List Str → Except RErr Unit
  | [], _ => .ok ()
  | r :: rest, capabilities =>
    match checkMutationRestriction r capabilities with
    | .error e => .error e
    | .ok _ => checkMutList rest capabilities

/-- The nested loop of `validatePluginMutations` over the matching plugin
restrictions and their mutation restrictions. -/
def checkPluginMutList : List PluginRestriction → List Str → Except RErr Unit
  | [], _ => .ok ()
  | pr :: rest, capabilities =>
    match checkMutList pr.mutationRestrictions capabilities with
    | .error e => .error e
    | .ok _ => checkPluginMutList rest capabilities

/-- Embedding of `RestrictionsValidator.validatePluginMutations`. -/
def validatePluginMutations (cfg : RestrictionsConfig) (pluginName : Str)
    (adjust : Option ContainerAdjustment) : Except RErr Unit :=
  let capabilities := extractMutationCapabilities adjust
  match checkMutList cfg.globalRestrictions capabilities with
  | .error e => .error e
  | .ok _ => checkPluginMutList (findPluginRestrictions cfg pluginName) capabilities

/-- First-failure loop over a list of pod restrictions. -/
def checkPodList : List PodRestriction → PodSandbox → Except RErr Unit
  | [], _ => .ok ()
  | r :: rest, pod =>
    match checkPodRestriction r pod with
    | .error e => .error e
    | .ok _ => checkPodList rest pod

/-- The nested loop of `validatePodAccess` over the matching plugin
restrictions and their pod restrictions. -/
def checkPluginPodList : List PluginRestriction → PodSandbox → Except RErr Unit
  | [], _ => .ok ()
  | pr :: rest, pod =>
    match checkPodList pr.podRestrictions pod with
    | .error e => .error e
    | .ok _ => checkPluginPodList rest pod

/-- Embedding of `RestrictionsValidator.validatePodAccess`. -/
def validatePodAccess (cfg : RestrictionsConfig) (pluginName : Str) (pod : PodSandbox) :
    Except RErr Unit :=
  match checkPodList cfg.globalPodRestrictions pod with
  | .error e => .error e
  | .ok _ => checkPluginPodList (findPluginRestrictions cfg pluginName) pod

/-- Embedding of `ValidateContainerAdjustmentRequest` restricted to the
accessors this code uses: `GetPod()`, `GetPluginMap()` (only its keys are
read, in iteration order) and the `Adjust` field. -/
structure ValidateContainerAdjustmentRequest where
  pod : Option PodSandbox
  plugins : List Str
  adjust : Option ContainerAdjustment
deriving DecidableEq, Repr

/-- Errors of `RestrictionsValidator.ValidateContainerAdjustment`,
wrapping the raw restriction errors as the Go `fmt.Errorf("... %w")`
calls do. -/
inductive VErr where
  /-- Message "pod information is required for restrictions validation" -/
  | podRequired
  /-- Message "plugin %s restricted: %w" -/
  | pluginRestricted (plugin : Str) (e : RErr)
  /-- Message "plugin %s denied pod access: %w" -/
  | pluginDeniedPodAccess (plugin : Str) (e : RErr)
deriving DecidableEq, Repr

/-- The `for pluginName := range plugins` loop of
`RestrictionsValidator.ValidateContainerAdjustment`. -/
def rvValidatePlugins (cfg : RestrictionsConfig) (adjust : Option ContainerAdjustment)
    (pod : PodSandbox) : List Str → Except VErr Unit
  | [] => .ok ()
  | pluginName :: rest =>
    match validatePluginMutations cfg pluginName adjust with
    | .error e => .error (.pluginRestricted pluginName e)
    | .ok _ =>
      match validatePodAccess cfg pluginName pod with
      | .error e => .error (.pluginDeniedPodAccess pluginName e)
      | .ok _ => rvValidatePlugins cfg adjust pod rest

/-- Embedding of `RestrictionsValidator.ValidateContainerAdjustment`:
fail when the pod is nil, then check each plugin's mutations and pod
access in order. -/
def rvValidateContainerAdjustment (cfg : RestrictionsConfig)
    (req : ValidateContainerAdjustmentRequest) : Except VErr Unit :=
  match req.pod with
  | none => .error .podRequired
  | some pod => rvValidatePlugins cfg req.adjust pod req.plugins

/-- Embedding of `PolicyBasedValidator`: the policy plus an optional
restrictions validator (which wraps a `RestrictionsConfig`). -/
structure PolicyBasedValidator where
  policy : NRIValidationPolicySpec
  restrictionsValidator : Option RestrictionsConfig
deriving DecidableEq, Repr

/-- Errors of `PolicyBasedValidator.ValidateContainerAdjustment`. -/
inductive PErr where
  /-- Message "pod information is required for policy validation" -/
  | podRequired
  /-- Message "restrictions validation failed: %w" -/
  | restrictionsFailed (e : VErr)
  /-- Message "policy validation failed for plugin %s: %w" -/
  | policyFailed (plugin : Str) (e : AccessErr)
deriving DecidableEq, Repr

/-- The `for pluginName := range plugins` loop of
`PolicyBasedValidator.ValidateContainerAdjustment`, which sets
`validationCtx.PluginName` before each access check. -/
def pvValidatePlugins (policy : NRIValidationPolicySpec) (ctx : ValidationContext) :
    List Str → Except PErr Unit
  | [] => .ok ()
  | pluginName :: rest =>
    match validatePluginAccess policy { ctx with pluginName := pluginName } with
    | .error e => .error (.policyFailed pluginName e)
    | .ok _ => pvValidatePlugins policy ctx rest

/-- Embedding of `PolicyBasedValidator.ValidateContainerAdjustment`:
fail when the pod is nil; build a default context from the pod when none
was given; run the restrictions validator first when present; then check
policy access per plugin. -/
def pvValidateContainerAdjustment (pv : PolicyBasedValidator)
    (req : ValidateContainerAdjustmentRequest) (validationCtx : Option ValidationContext) :
    Except PErr Unit :=
  match req.pod with
  | none => .error .podRequired
  | some pod =>
    let ctx := match validationCtx with
      | none => { subject := none, podNamespace := pod.ns, podName := pod.name, pluginName := [] }
      | some c => c
    match pv.restrictionsValidator with
    | some cfg =>
      match rvValidateContainerAdjustment cfg req with
      | .error e => .error (.restrictionsFailed e)
      | .ok _ => pvValidatePlugins pv.policy ctx req.plugins
    | none => pvValidatePlugins pv.policy ctx req.plugins

/-! ## Configuration loader and validator (first Go file of `pkg/api`) -/

/-- Embedding of `ValidationConfig`.  `DefaultValidatorConfig` is an
opaque map whose contents are never read by the merge beyond a nil test,
so it carries `Unit`. -/
structure ValidationConfig where
  policy : Option NRIValidationPolicySpec
  restrictions : Option RestrictionsConfig
  enableDefaultValidator : Bool
  defaultValidatorConfig : Option Unit
deriving DecidableEq, Repr

/-- The merge step of the `for _, file := range files` loop in
`LoadConfigFromDir`: each non-nil field of the later file overwrites the
accumulator's field whole; the boolean is only ever set to true. -/
def mergeConfigFile (acc c : ValidationConfig) : ValidationConfig :=
  { policy := match c.policy with
      | some p => some p
      | none => acc.policy
    restrictions := match c.restrictions with
      | some r => some r
      | none => acc.restrictions
    enableDefaultValidator :=
      if c.enableDefaultValidator then c.enableDefaultValidator else acc.enableDefaultValidator
    defaultValidatorConfig := match c.defaultValidatorConfig with
      | some d => some d
      | none => acc.defaultValidatorConfig }

/-- The zero-valued `var mergedConfig ValidationConfig` accumulator. -/
def emptyValidationConfig : ValidationConfig :=
  { policy := none, restrictions := none,
    enableDefaultValidator := false, defaultValidatorConfig := none }

/-- The merge phase of `LoadConfigFromDir`, over the already-parsed
configuration files in directory-listing order (file globbing and YAML
parsing are I/O and sit outside the embedding). -/
def mergeConfigFiles (files : List ValidationConfig) : ValidationConfig :=
  files.foldl mergeConfigFile emptyValidationConfig

/-- Errors of `validatePolicy`, one constructor per `fmt.Errorf` site,
carrying the rule index `i` and, for subject errors, the subject index
`j`, exactly as the messages do. -/
inductive CfgErr where
  /-- Message "rule %d: namespaces cannot be empty" -/
  | ruleNamespacesEmpty (i : Nat)
  /-- Message "rule %d: plugins cannot be empty" -/
  | rulePluginsEmpty (i : Nat)
  /-- Message "rule %d: subjects cannot be empty" -/
  | ruleSubjectsEmpty (i : Nat)
  /-- Message "rule %d, subject %d: kind cannot be empty" -/
  | subjectKindEmpty (i j : Nat)
  /-- Message "rule %d, subject %d: name cannot be empty" -/
  | subjectNameEmpty (i j : Nat)
  /-- Message "rule %d, subject %d: invalid kind %s, ..." -/
  | subjectInvalidKind (i j : Nat) (kind : Str)
deriving DecidableEq, Repr

/-- The `validKinds` list of `validatePolicy`. -/
def validKinds : List Str := [strLit "User", strLit "Group", strLit "ServiceAccount"]

/-- The inner `for j, subject := range rule.Subjects` loop of
`validatePolicy`; the `found` scan over `validKinds` is the `contains`
test. -/
def validateSubjects (i : Nat) : Nat → List PolicySubject → Except CfgErr Unit
  | _, [] => .ok ()
  | j, s :: rest =>
    if s.kind.isEmpty then .error (.subjectKindEmpty i j)
    else if s.name.isEmpty then .error (.subjectNameEmpty i j)
    else if !(validKinds.contains s.kind) then .error (.subjectInvalidKind i j s.kind)
    else validateSubjects i (j + 1) rest

/-- The outer `for i, rule := range policy.Rules` loop of
`validatePolicy`. -/
def validateRules : Nat → List PolicyRule → Except CfgErr Unit
  | _, [] => .ok ()
  | i, rule :: rest =>
    if rule.namespaces.isEmpty then .error (.ruleNamespacesEmpty i)
    else if rule.plugins.isEmpty then .error (.rulePluginsEmpty i)
    else if rule.subjects.isEmpty then .error (.ruleSubjectsEmpty i)
    else
      match validateSubjects i 0 rule.subjects with
      | .error e => .error e
      | .ok _ => validateRules (i + 1) rest

/-- Embedding of `validatePolicy`. -/
def validatePolicy (policy : NRIValidationPolicySpec) : Except CfgErr Unit :=
  validateRules 0 policy.rules

/-- Errors of `validateMutationRestriction`. -/
inductive MutCfgErr where
  /-- Message "invalid action: must be allow or deny" -/
  | invalidAction
  /-- Message "capabilities cannot be empty" -/
  | emptyCapabilities
  /-- Message "invalid capability: %s" -/
  | invalidCapability (cap : Str)
deriving DecidableEq, Repr

/-- The `validCapabilities` list of `validateMutationRestriction`. -/
def validCapabilities : List Str :=
  [MutationAnnotations, MutationMounts, MutationArgs, MutationEnv,
   MutationHooks, MutationRlimits, MutationDevices, MutationResources,
   MutationSeccomp, MutationNamespaces, MutationMemory, MutationCPU,
   MutationBlockio, MutationRDT, MutationUnified]

/-- Embedding of `validateMutationRestriction`: the capability loop fails
on the first name outside `validCapabilities`. -/
def validateMutationRestriction (r : MutationRestriction) : Except MutCfgErr Unit :=
  if !(r.action = RestrictionAllow) && !(r.action = RestrictionDeny) then .error .invalidAction
  else if r.capabilities.isEmpty then .error .emptyCapabilities
  else
    match r.capabilities.find? (fun c => !(validCapabilities.contains c)) with
    | some c => .error (.invalidCapability c)
    | none => .ok ()

/-- Errors of `validateRestrictions`, carrying the positions of the
offending restriction as the messages do. -/
inductive ResCfgErr where
  /-- Message "invalid defaultAction: must be allow or deny" -/
  | invalidDefaultAction
  /-- Message "global restriction %d: %w" -/
  | globalRestriction (i : Nat) (e : MutCfgErr)
  /-- Message "plugin restriction %d: pluginPattern cannot be empty" -/
  | emptyPluginPattern (i : Nat)
  /-- Message "plugin restriction %d, mutation restriction %d: %w" -/
  | pluginMutationRestriction (i j : Nat) (e : MutCfgErr)
deriving DecidableEq, Repr

/-- The `for i, restriction := range restrictions.GlobalRestrictions`
loop of `validateRestrictions`. -/
def validateGlobalRestrictions : Nat → List MutationRestriction → Except ResCfgErr Unit
  | _, [] => .ok ()
  | i, r :: rest =>
    match validateMutationRestriction r with
    | .error e => .error (.globalRestriction i e)
    | .ok _ => validateGlobalRestrictions (i + 1) rest

/-- The inner `for j, mutationRestriction := range ...` loop of the
plugin-restriction check. -/
def validatePluginMutRestrictions (i : Nat) : Nat → List MutationRestriction → Except ResCfgErr Unit
  | _, [] => .ok ()
  | j, r :: rest =>
    match validateMutationRestriction r with
    | .error e => .error (.pluginMutationRestriction i j e)
    | .ok _ => validatePluginMutRestrictions i (j + 1) rest

/-- The `for i, pluginRestriction := range ...` loop of
`validateRestrictions`. -/
def validatePluginRestrictions : Nat → List PluginRestriction → Except ResCfgErr Unit
  | _, [] => .ok ()
  | i, pr :: rest =>
    if pr.pluginPattern.isEmpty then .error (.emptyPluginPattern i)
    else
      match validatePluginMutRestrictions i 0 pr.mutationRestrictions with
      | .error e => .error e
      | .ok _ => validatePluginRestrictions (i + 1) rest

/-- Embedding of `validateRestrictions`. -/
def validateRestrictions (restrictions : RestrictionsConfig) : Except ResCfgErr Unit :=
  if !restrictions.defaultAction.isEmpty &&
     !(restrictions.defaultAction = RestrictionAllow) &&
     !(restrictions.defaultAction = RestrictionDeny) then
    .error .invalidDefaultAction
  else
    match validateGlobalRestrictions 0 restrictions.globalRestrictions with
    | .error e => .error e
    | .ok _ => validatePluginRestrictions 0 restrictions.pluginRestrictions

/-- Errors of `ValidateConfig`. -/
inductive TopCfgErr where
  /-- Message "config cannot be nil" -/
  | nilConfig
  /-- Message "invalid policy: %w" -/
  | invalidPolicy (e : CfgErr)
  /-- Message "invalid restrictions: %w" -/
  | invalidRestrictions (e : ResCfgErr)
deriving DecidableEq, Repr

/-- Embedding of `ValidateConfig` (the argument is a nil-able pointer). -/
def ValidateConfig (config : Option ValidationConfig) : Except TopCfgErr Unit :=
  match config with
  | none => .error .nilConfig
  | some c =>
    match (match c.policy with
           | some p => validatePolicy p
           | none => .ok ()) with
    | .error e => .error (.invalidPolicy e)
    | .ok _ =>
      match c.restrictions with
      | some r =>
        match validateRestrictions r with
        | .error e => .error (.invalidRestrictions e)
        | .ok _ => .ok ()
      | none => .ok ()

/-! ## Helper lemmas -/

/-- Membership in a conditional singleton list. -/
theorem mem_ite_singleton {c : Prop} [Decidable c] {x y : Str} :
    x ∈ (if c then [y] else []) ↔ c ∧ x = y := by
  split_ifs with h <;> simp [h]

/-- `hasPre` agrees with the prefix relation. -/
theorem hasPre_iff {s p : Str} : hasPre s p = true ↔ p <+: s := by
  simp [hasPre, List.isPrefixOf_iff_prefix]

/-- `hasSuf` agrees with the suffix relation. -/
theorem hasSuf_iff {s p : Str} : hasSuf s p = true ↔ p <:+ s := by
  simp [hasSuf, List.isSuffixOf_iff_suffix]

/-- A string ending in `*` starts with its own star-trimmed form. -/
theorem hasPre_trimSuf_self (p : Str) (h : hasSuf p star = true) :
    hasPre p (trimSuf p star) = true := by
  simp [trimSuf, h, hasPre_iff]
  exact List.take_prefix _ _

/-- A string starting with `*` ends with its own star-trimmed form. -/
theorem hasSuf_trimPre_self (p : Str) (h : hasPre p star = true) :
    hasSuf p (trimPre p star) = true := by
  simp [trimPre, h, hasSuf_iff]
  exact List.drop_suffix _ _

/-- A string ending in `*` contains the character `*`. -/
theorem strContains_of_hasSuf (p : Str) (h : hasSuf p star = true) :
    strContains p '*' = true := by
  rw [hasSuf_iff] at h
  simp only [strContains, List.contains, List.elem_eq_mem, decide_eq_true_eq]
  exact h.subset (by decide)

/-- A string starting with `*` contains the character `*`. -/
theorem strContains_of_hasPre (p : Str) (h : hasPre p star = true) :
    strContains p '*' = true := by
  rw [hasPre_iff] at h
  simp only [strContains, List.contains, List.elem_eq_mem, decide_eq_true_eq]
  exact h.subset (by decide)

/-- `subjectAllowed` succeeds exactly for a present subject matched
exactly on kind and name by some allowed subject. -/
theorem subjectAllowed_iff (subject : Option PolicySubject)
    (allowedSubjects : List PolicySubject) :
    subjectAllowed subject allowedSubjects = true ↔
      ∃ s, subject = some s ∧
        ∃ a ∈ allowedSubjects, s.kind = a.kind ∧ s.name = a.name := by
  cases subject with
  | none => simp [subjectAllowed]
  | some s =>
    simp [subjectAllowed, List.any_eq_true, Bool.and_eq_true, beq_iff_eq]

/-! ## Claim theorems -/

/-- Claim C4 counterexample: the claim states that `globMatch` returns true iff
the pattern is `*`, or it ends in `*` and the value has its prefix, or it
begins with `*` and the value has its suffix, or pattern and value are
equal.  At pattern `*a*` and value `ba*`, the pattern begins with `*` and
the value ends with the pattern's suffix `a*`, so the claimed disjunction
holds, yet `globMatch` returns false: the trailing-star branch returns
first and tests only the prefix. -/
theorem C4_counterexample :
    ¬ (globMatch (strLit "*a*") (strLit "ba*") = true ↔
        (strLit "*a*" = star ∨
         (hasSuf (strLit "*a*") star = true ∧
           hasPre (strLit "ba*") (trimSuf (strLit "*a*") star) = true) ∨
         (hasPre (strLit "*a*") star = true ∧
           hasSuf (strLit "ba*") (trimPre (strLit "*a*") star) = true) ∨
         strLit "*a*" = strLit "ba*")) := by
  decide

/-- Claim C4, amended: `globMatch` returns true iff the pattern is `*`; or the
pattern ends in `*` and the value has the pattern's prefix; or the pattern
does NOT end in `*`, begins with `*`, and the value has the pattern's
suffix; or the pattern equals the value exactly.  The amendment is that
the trailing-star rule takes precedence: the leading-star rule applies
only to patterns not also ending in `*`.  In particular a pattern with
only an embedded `*` matches by exact equality alone. -/
theorem C4_globMatch_characterization (p v : Str) :
    globMatch p v = true ↔
      (p = star ∨
       (hasSuf p star = true ∧ hasPre v (trimSuf p star) = true) ∨
       (hasSuf p star = false ∧ hasPre p star = true ∧
         hasSuf v (trimPre p star) = true) ∨
       p = v) := by
  unfold globMatch
  split_ifs with h1 h2 h3 h4
  · simp [h1]
  · constructor
    · intro hp
      exact Or.inr (Or.inl ⟨h3, hp⟩)
    · rintro (he | ⟨_, hp⟩ | ⟨hns, _, _⟩ | he)
      · exact absurd he h1
      · exact hp
      · rw [h3] at hns
        cases hns
      · subst he
        exact hasPre_trimSuf_self p h3
  · have h3f : hasSuf p star = false := by
      cases hb : hasSuf p star
      · rfl
      · exact absurd hb h3
    constructor
    · intro hs
      exact Or.inr (Or.inr (Or.inl ⟨h3f, h4, hs⟩))
    · rintro (he | ⟨hsf, _⟩ | ⟨_, _, hs⟩ | he)
      · exact absurd he h1
      · rw [h3f] at hsf
        cases hsf
      · exact hs
      · subst he
        exact hasSuf_trimPre_self p h4
  · have h3f : hasSuf p star = false := by
      cases hb : hasSuf p star
      · rfl
      · exact absurd hb h3
    have h4f : hasPre p star = false := by
      cases hb : hasPre p star
      · rfl
      · exact absurd hb h4
    simp only [decide_eq_true_eq, h3f, h4f]
    constructor
    · intro he
      exact Or.inr (Or.inr (Or.inr he))
    · rintro (he | ⟨hsf, _⟩ | ⟨_, hpf, _⟩ | he)
      · exact absurd he h1
      · cases hsf
      · cases hpf
      · exact he
  · have h3f : hasSuf p star = false := by
      cases hb : hasSuf p star
      · rfl
      · exact absurd (strContains_of_hasSuf p hb) h2
    have h4f : hasPre p star = false := by
      cases hb : hasPre p star
      · rfl
      · exact absurd (strContains_of_hasPre p hb) h2
    simp only [decide_eq_true_eq, h3f, h4f]
    constructor
    · intro he
      exact Or.inr (Or.inr (Or.inr he))
    · rintro (he | ⟨hsf, _⟩ | ⟨_, hpf, _⟩ | he)
      · exact absurd he h1
      · cases hsf
      · cases hpf
      · exact he

/-- Claim C7: a nil subject never satisfies a grant — `subjectAllowed` returns
false for a nil subject whatever the allowed-subjects list — and a rule
grants only to a present subject with exactly equal kind and name. -/
theorem C7_nil_subject_never_granted (subject : Option PolicySubject)
    (allowedSubjects : List PolicySubject) :
    subjectAllowed none allowedSubjects = false ∧
    (subjectAllowed subject allowedSubjects = true ↔
      ∃ s, subject = some s ∧
        ∃ a ∈ allowedSubjects, s.kind = a.kind ∧ s.name = a.name) := by
  exact ⟨rfl, subjectAllowed_iff subject allowedSubjects⟩

/-- The `"seccomp"` capability differs from every capability the
extractor can append. -/
theorem seccomp_ne_extractable :
    MutationSeccomp ≠ MutationAnnotations ∧ MutationSeccomp ≠ MutationMounts ∧
    MutationSeccomp ≠ MutationArgs ∧ MutationSeccomp ≠ MutationEnv ∧
    MutationSeccomp ≠ MutationHooks ∧ MutationSeccomp ≠ MutationRlimits ∧
    MutationSeccomp ≠ MutationDevices ∧ MutationSeccomp ≠ MutationResources ∧
    MutationSeccomp ≠ MutationMemory ∧ MutationSeccomp ≠ MutationCPU ∧
    MutationSeccomp ≠ MutationBlockio ∧ MutationSeccomp ≠ MutationRDT ∧
    MutationSeccomp ≠ MutationUnified ∧ MutationSeccomp ≠ MutationNamespaces := by
  decide

/-- The extractor never reports the seccomp capability, for any
adjustment whatsoever. -/
theorem seccomp_not_mem_extract (adjust : Option ContainerAdjustment) :
    MutationSeccomp ∉ extractMutationCapabilities adjust := by
  obtain ⟨n1, n2, n3, n4, n5, n6, n7, n8, n9, n10, n11, n12, n13, n14⟩ :=
    seccomp_ne_extractable
  obtain _ | ⟨ann, mnt, arg, envv, hks, rlm, lnx⟩ := adjust
  · simp [extractMutationCapabilities]
  · obtain _ | ⟨dev, res, nss⟩ := lnx
    · simp [extractMutationCapabilities, mem_ite_singleton, n1, n2, n3, n4, n5, n6]
    · obtain _ | ⟨mem, cpu, bio, rdtc, uni⟩ := res
      · simp [extractMutationCapabilities, mem_ite_singleton,
              n1, n2, n3, n4, n5, n6, n7, n14]
      · simp [extractMutationCapabilities, mem_ite_singleton,
              n1, n2, n3, n4, n5, n6, n7, n8, n9, n10, n11, n12, n13, n14]

/-- Claim C5 divergence evidence: the extractor never reports the seccomp
capability — there is no seccomp field of the adjustment for it to track
(the source notes "SeccompProfile is only in LinuxContainer, not
LinuxContainerAdjustment") — so the claimed iff with a non-empty seccomp
field cannot hold, and a `deny [seccomp]` restriction passes every
adjustment. -/
theorem C5_seccomp_never_reported (adjust : Option ContainerAdjustment) :
    (extractMutationCapabilities adjust).contains MutationSeccomp = false ∧
    checkMutationRestriction ⟨RestrictionDeny, [MutationSeccomp]⟩
      (extractMutationCapabilities adjust) = .ok () := by
  have hmem := seccomp_not_mem_extract adjust
  constructor
  · simp [List.contains, List.elem_eq_mem, hmem]
  · have hda : RestrictionDeny ≠ RestrictionAllow := by decide
    have hfind : (extractMutationCapabilities adjust).find?
        (fun c => decide (c = MutationSeccomp)) = none := by
      apply List.find?_eq_none.2
      intro x hx
      simp only [decide_eq_true_eq]
      intro hxe
      exact hmem (hxe ▸ hx)
    simp [checkMutationRestriction, hda, hfind]

/-- Claim C6: the extractor yields the empty set on a nil adjustment, and yields
exactly the resources capability followed by the memory capability on any
adjustment whose only non-empty content is the memory sub-field of the
Linux resources block. -/
theorem C6_extract_nil_and_memory_only :
    extractMutationCapabilities none = [] ∧
    ∀ (a : ContainerAdjustment) (l : LinuxContainerAdjustment)
      (r : LinuxContainerResources),
      a.annotations = [] → a.mounts = [] → a.args = [] → a.env = [] →
      a.hooks = none → a.rlimits = [] → a.linux = some l →
      l.devices = [] → l.namespaces = [] → l.resources = some r →
      r.memory.isSome = true → r.cpu = none →
      optValNonEmpty r.blockioClass = false → optValNonEmpty r.rdtClass = false →
      r.unified = [] →
      extractMutationCapabilities (some a) = [MutationResources, MutationMemory] := by
  refine ⟨rfl, ?_⟩
  intro a l r h1 h2 h3 h4 h5 h6 h7 h8 h9 h10 h11 h12 h13 h14 h15
  obtain ⟨ann, mnt, arg, envv, hks, rlm, lnx⟩ := a
  simp only at h1 h2 h3 h4 h5 h6 h7
  subst h1 h2 h3 h4 h5 h6 h7
  obtain ⟨dev, res, nss⟩ := l
  simp only at h8 h9 h10
  subst h8 h9 h10
  simp [extractMutationCapabilities, h11, h12, h13, h14, h15]

/-- Claim C6 witness: the two parts at the concrete memory-only adjustment. -/
theorem C6_witness :
    extractMutationCapabilities (some
      { annotations := [], mounts := [], args := [], env := [], hooks := none,
        rlimits := [],
        linux := some { devices := [],
                        resources := some { memory := some (), cpu := none,
                                            blockioClass := none, rdtClass := none,
                                            unified := [] },
                        namespaces := [] } }) =
      [MutationResources, MutationMemory] :=
  C6_extract_nil_and_memory_only.2 _ _ _
    rfl rfl rfl rfl rfl rfl rfl rfl rfl rfl rfl rfl rfl rfl rfl

/-- Claim C1: the same `defaultDeny` flag governs both failure branches of
`validatePluginAccess`: with no namespace-matching rule the decision is
deny iff `defaultDeny`, and with matching rules none of which both
matches the plugin name and contains a subject exactly equal in kind and
name to the context's subject, the decision is likewise deny iff
`defaultDeny`. -/
theorem C1_default_deny_governs_both_failure_branches
    (policy : NRIValidationPolicySpec) (ctx : ValidationContext) :
    (findMatchingRules policy ctx.podNamespace = [] →
      validatePluginAccess policy ctx =
        (if policy.defaultDeny then .error .noMatchingRules else .ok ())) ∧
    (findMatchingRules policy ctx.podNamespace ≠ [] →
      (∀ rule ∈ findMatchingRules policy ctx.podNamespace,
         ¬ (pluginAllowed ctx.pluginName rule.plugins = true ∧
            ∃ s, ctx.subject = some s ∧
              ∃ a ∈ rule.subjects, s.kind = a.kind ∧ s.name = a.name)) →
      validatePluginAccess policy ctx =
        (if policy.defaultDeny then .error .noRuleGrants else .ok ())) := by
  constructor
  · intro h
    simp [validatePluginAccess, h]
  · intro hne hno
    have hempty : (findMatchingRules policy ctx.podNamespace).isEmpty = false := by
      cases hM : findMatchingRules policy ctx.podNamespace
      · exact absurd hM hne
      · rfl
    have hany : (findMatchingRules policy ctx.podNamespace).any
        (fun rule => pluginAllowed ctx.pluginName rule.plugins &&
                     subjectAllowed ctx.subject rule.subjects) = false := by
      rw [List.any_eq_false]
      intro rule hr hb
      rw [Bool.and_eq_true] at hb
      obtain ⟨hp, hs⟩ := hb
      rw [subjectAllowed_iff] at hs
      exact hno rule hr ⟨hp, hs⟩
    simp [validatePluginAccess, hempty, hany]

/-- Claim C1 witness: with `defaultDeny = true`, a context whose namespace no
rule matches is denied with the no-matching-rules error, and a context
whose matching rule names a different plugin is denied with the
no-rule-grants error. -/
theorem C1_witness :
    validatePluginAccess ⟨true, []⟩
      { subject := none, podNamespace := strLit "ns", podName := strLit "pod",
        pluginName := strLit "plug" } = .error .noMatchingRules ∧
    validatePluginAccess
      ⟨true, [{ namespaces := [strLit "prod"], plugins := [strLit "other"],
                subjects := [⟨strLit "User", strLit "alice"⟩] }]⟩
      { subject := some ⟨strLit "User", strLit "bob"⟩,
        podNamespace := strLit "prod", podName := strLit "pod",
        pluginName := strLit "x" } = .error .noRuleGrants := by
  constructor
  · have h := (C1_default_deny_governs_both_failure_branches ⟨true, []⟩
      { subject := none, podNamespace := strLit "ns", podName := strLit "pod",
        pluginName := strLit "plug" }).1 rfl
    simpa using h
  · have hno : ∀ rule ∈ findMatchingRules
        ⟨true, [{ namespaces := [strLit "prod"], plugins := [strLit "other"],
                  subjects := [⟨strLit "User", strLit "alice"⟩] }]⟩
        (strLit "prod"),
        ¬ (pluginAllowed (strLit "x") rule.plugins = true ∧
           ∃ s, (some (⟨strLit "User", strLit "bob"⟩ : PolicySubject)) = some s ∧
             ∃ a ∈ rule.subjects, s.kind = a.kind ∧ s.name = a.name) := by
      intro rule hr
      have hM : findMatchingRules
          ⟨true, [{ namespaces := [strLit "prod"], plugins := [strLit "other"],
                    subjects := [⟨strLit "User", strLit "alice"⟩] }]⟩
          (strLit "prod") =
          [{ namespaces := [strLit "prod"], plugins := [strLit "other"],
             subjects := [⟨strLit "User", strLit "alice"⟩] }] := by decide
      rw [hM] at hr
      rw [List.mem_singleton] at hr
      subst hr
      rintro ⟨hp, _⟩
      revert hp
      decide
    have h := (C1_default_deny_governs_both_failure_branches
      ⟨true, [{ namespaces := [strLit "prod"], plugins := [strLit "other"],
                subjects := [⟨strLit "User", strLit "alice"⟩] }]⟩
      { subject := some ⟨strLit "User", strLit "bob"⟩,
        podNamespace := strLit "prod", podName := strLit "pod",
        pluginName := strLit "x" }).2 (by decide) hno
    simpa using h

/-- Claim C3: a mutation-restriction check fails iff the action is deny and
some extracted capability is in the restriction's list, or the action is
allow and some extracted capability is outside the restriction's list;
with an empty extracted capability list every check passes. -/
theorem C3_checkMutationRestriction_characterization
    (r : MutationRestriction) (capabilities : List Str) :
    ((∃ e, checkMutationRestriction r capabilities = .error e) ↔
      (r.action = RestrictionDeny ∧ ∃ c ∈ capabilities, c ∈ r.capabilities) ∨
      (r.action = RestrictionAllow ∧ ∃ c ∈ capabilities, c ∉ r.capabilities)) ∧
    checkMutationRestriction r [] = .ok () := by
  have hAD : RestrictionAllow ≠ RestrictionDeny := by decide
  constructor
  · unfold checkMutationRestriction
    split_ifs with hA hD
    · cases hf : capabilities.find? (fun c => !(r.capabilities.contains c)) with
      | some c =>
        simp only [hf]
        constructor
        · intro _
          have hmem := List.mem_of_find?_eq_some hf
          have hc := List.find?_some hf
          refine Or.inr ⟨hA, c, hmem, ?_⟩
          simp only [Bool.not_eq_true'] at hc
          simp only [List.contains, List.elem_eq_mem, decide_eq_false_iff_not] at hc
          exact hc
        · intro _
          exact ⟨_, rfl⟩
      | none =>
        simp only [hf]
        rw [List.find?_eq_none] at hf
        constructor
        · rintro ⟨e, he⟩
          cases he
        · rintro (⟨hDen, _⟩ | ⟨_, c, hcm, hnot⟩)
          · rw [hA] at hDen
            exact absurd hDen hAD
          · have hc := hf c hcm
            simp only [Bool.not_eq_true', Bool.not_eq_false] at hc
            simp only [List.contains, List.elem_eq_mem, decide_eq_true_eq] at hc
            exact (hnot hc).elim
    · cases hf : capabilities.find? (fun c => r.capabilities.contains c) with
      | some c =>
        simp only [hf]
        constructor
        · intro _
          have hmem := List.mem_of_find?_eq_some hf
          have hc := List.find?_some hf
          refine Or.inl ⟨hD, c, hmem, ?_⟩
          simp only [List.contains, List.elem_eq_mem, decide_eq_true_eq] at hc
          exact hc
        · intro _
          exact ⟨_, rfl⟩
      | none =>
        simp only [hf]
        rw [List.find?_eq_none] at hf
        constructor
        · rintro ⟨e, he⟩
          cases he
        · rintro (⟨_, c, hcm, hin⟩ | ⟨hAl, _⟩)
          · have hc := hf c hcm
            simp only [List.contains, List.elem_eq_mem, decide_eq_true_eq] at hc
            exact (hc hin).elim
          · exact (hA hAl).elim
    · constructor
      · rintro ⟨e, he⟩
        cases he
      · rintro (⟨hDen, _⟩ | ⟨hAl, _⟩)
        · exact (hD hDen).elim
        · exact (hA hAl).elim
  · unfold checkMutationRestriction
    split_ifs <;> rfl

/-- The per-plugin restriction checks ignore the `defaultAction` field:
on configurations agreeing on every other field they are definitionally
equal. -/
theorem rvValidatePlugins_defaultAction (d da : Str)
    (g : List MutationRestriction) (p : List PluginRestriction)
    (gp : List PodRestriction) (adjust : Option ContainerAdjustment)
    (pod : PodSandbox) (plugins : List Str) :
    rvValidatePlugins ⟨da, g, p, gp⟩ adjust pod plugins =
    rvValidatePlugins ⟨d, g, p, gp⟩ adjust pod plugins := by
  induction plugins with
  | nil => rfl
  | cons hd tl ih =>
    have h1 : validatePluginMutations ⟨da, g, p, gp⟩ hd adjust =
        validatePluginMutations ⟨d, g, p, gp⟩ hd adjust := rfl
    have h2 : validatePodAccess ⟨da, g, p, gp⟩ hd pod =
        validatePodAccess ⟨d, g, p, gp⟩ hd pod := rfl
    simp only [rvValidatePlugins, h1, h2, ih]

/-- Claim C2: `restrictions.defaultAction` is never consulted during checking —
changing only the `DefaultAction` field of the configuration leaves the
result of `RestrictionsValidator.ValidateContainerAdjustment` unchanged
on every request. -/
theorem C2_defaultAction_never_consulted (cfg : RestrictionsConfig) (da : Str)
    (req : ValidateContainerAdjustmentRequest) :
    rvValidateContainerAdjustment { cfg with defaultAction := da } req =
    rvValidateContainerAdjustment cfg req := by
  obtain ⟨d, g, p, gp⟩ := cfg
  obtain ⟨pod, plugins, adjust⟩ := req
  cases pod with
  | none => rfl
  | some pd =>
    exact rvValidatePlugins_defaultAction d da g p gp adjust pd plugins

/-- Claim C8: directory-merge is whole-field last-file-wins for the policy and
restrictions fields — appending a file with a non-nil policy or
restrictions field replaces the accumulated field whole, keeping it
otherwise — and in particular with two files both setting policy, the
merged configuration carries exactly the second file's policy record. -/
theorem C8_merge_last_file_wins :
    (∀ (files : List ValidationConfig) (c : ValidationConfig),
      (mergeConfigFiles (files ++ [c])).policy =
        (match c.policy with
         | some p => some p
         | none => (mergeConfigFiles files).policy) ∧
      (mergeConfigFiles (files ++ [c])).restrictions =
        (match c.restrictions with
         | some r => some r
         | none => (mergeConfigFiles files).restrictions)) ∧
    (∀ (c1 c2 : ValidationConfig) (p1 p2 : NRIValidationPolicySpec),
      c1.policy = some p1 → c2.policy = some p2 →
      (mergeConfigFiles [c1, c2]).policy = some p2) := by
  have hstep : ∀ (files : List ValidationConfig) (c : ValidationConfig),
      mergeConfigFiles (files ++ [c]) = mergeConfigFile (mergeConfigFiles files) c := by
    intro files c
    simp [mergeConfigFiles, List.foldl_append]
  constructor
  · intro files c
    rw [hstep files c]
    cases c with
    | mk cp cr ce cd =>
      constructor
      · cases cp <;> rfl
      · cases cr <;> rfl
  · intro c1 c2 p1 p2 h1 h2
    simp [mergeConfigFiles, mergeConfigFile, h2]

/-- Claim C8 witness: merging two one-field files that both set policy keeps
only the second file's policy record. -/
theorem C8_witness :
    (mergeConfigFiles
      [{ policy := some ⟨true, []⟩, restrictions := none,
         enableDefaultValidator := false, defaultValidatorConfig := none },
       { policy := some ⟨false, [{ namespaces := [star], plugins := [star],
                                   subjects := [⟨strLit "User", strLit "bob"⟩] }]⟩,
         restrictions := none, enableDefaultValidator := false,
         defaultValidatorConfig := none }]).policy =
      some ⟨false, [{ namespaces := [star], plugins := [star],
                      subjects := [⟨strLit "User", strLit "bob"⟩] }]⟩ :=
  C8_merge_last_file_wins.2 _ _ ⟨true, []⟩ _ rfl rfl

/-- Claim C10: with a nil pod, both engines fail with their pod-required error
for every configuration, plugin set and adjustment — in particular the
error does not depend on any restriction or rule. -/
theorem C10_nil_pod_always_errors (cfg : RestrictionsConfig)
    (pv : PolicyBasedValidator) (plugins : List Str)
    (adjust : Option ContainerAdjustment) (vctx : Option ValidationContext) :
    rvValidateContainerAdjustment cfg ⟨none, plugins, adjust⟩ = .error .podRequired ∧
    pvValidateContainerAdjustment pv ⟨none, plugins, adjust⟩ vctx = .error .podRequired := by
  exact ⟨rfl, rfl⟩

/-- The structural constraints on a policy subject: non-empty kind and
name, and kind among User, Group, ServiceAccount. -/
def goodSubject (s : PolicySubject) : Prop :=
  s.kind ≠ [] ∧ s.name ≠ [] ∧ s.kind ∈ validKinds

/-- The structural constraints on a policy rule: non-empty namespaces,
plugins and subjects, and every subject well-formed. -/
def goodRule (r : PolicyRule) : Prop :=
  r.namespaces ≠ [] ∧ r.plugins ≠ [] ∧ r.subjects ≠ [] ∧ ∀ s ∈ r.subjects, goodSubject s

/-- The subject loop of `validatePolicy` passes exactly when every
subject is well-formed. -/
theorem validateSubjects_ok_iff (i j : Nat) (ss : List PolicySubject) :
    validateSubjects i j ss = .ok () ↔ ∀ s ∈ ss, goodSubject s := by
  induction ss generalizing j with
  | nil => simp [validateSubjects]
  | cons s rest ih =>
    simp only [validateSubjects]
    split_ifs with h1 h2 h3
    · rw [List.isEmpty_iff] at h1
      constructor
      · intro h
        exact absurd h (by simp)
      · intro hall
        exact absurd h1 ((hall s (List.mem_cons_self s rest)).1)
    · rw [List.isEmpty_iff] at h2
      constructor
      · intro h
        exact absurd h (by simp)
      · intro hall
        exact absurd h2 ((hall s (List.mem_cons_self s rest)).2.1)
    · rw [Bool.not_eq_true', List.contains, List.elem_eq_mem, decide_eq_false_iff_not] at h3
      constructor
      · intro h
        exact absurd h (by simp)
      · intro hall
        exact absurd ((hall s (List.mem_cons_self s rest)).2.2) h3
    · have h3' : s.kind ∈ validKinds := by
        simpa [List.contains, List.elem_eq_mem] using h3
      have h1' : s.kind ≠ [] := by
        simpa [List.isEmpty_iff] using h1
      have h2' : s.name ≠ [] := by
        simpa [List.isEmpty_iff] using h2
      rw [ih (j + 1), List.forall_mem_cons]
      have hgood : goodSubject s := ⟨h1', h2', h3'⟩
      constructor
      · intro hall
        exact ⟨hgood, hall⟩
      · intro hall
        exact hall.2

/-- The rule loop of `validatePolicy` passes exactly when every rule is
well-formed. -/
theorem validateRules_ok_iff (i : Nat) (rs : List PolicyRule) :
    validateRules i rs = .ok () ↔ ∀ r ∈ rs, goodRule r := by
  induction rs generalizing i with
  | nil => simp [validateRules]
  | cons r rest ih =>
    simp only [validateRules]
    split_ifs with h1 h2 h3
    · rw [List.isEmpty_iff] at h1
      constructor
      · intro h
        exact absurd h (by simp)
      · intro hall
        exact absurd h1 ((hall r (List.mem_cons_self r rest)).1)
    · rw [List.isEmpty_iff] at h2
      constructor
      · intro h
        exact absurd h (by simp)
      · intro hall
        exact absurd h2 ((hall r (List.mem_cons_self r rest)).2.1)
    · rw [List.isEmpty_iff] at h3
      constructor
      · intro h
        exact absurd h (by simp)
      · intro hall
        exact absurd h3 ((hall r (List.mem_cons_self r rest)).2.2.1)
    · have h1' : r.namespaces ≠ [] := by
        simpa [List.isEmpty_iff] using h1
      have h2' : r.plugins ≠ [] := by
        simpa [List.isEmpty_iff] using h2
      have h3' : r.subjects ≠ [] := by
        simpa [List.isEmpty_iff] using h3
      cases hs : validateSubjects i 0 r.subjects with
      | error e =>
        constructor
        · intro h
          exact absurd h (by simp)
        · intro hall
          have hok : validateSubjects i 0 r.subjects = .ok () :=
            (validateSubjects_ok_iff i 0 r.subjects).2
              ((hall r (List.mem_cons_self r rest)).2.2.2)
          rw [hs] at hok
          exact absurd hok (by simp)
      | ok u =>
        cases u
        have hsub : ∀ s ∈ r.subjects, goodSubject s :=
          (validateSubjects_ok_iff i 0 r.subjects).1 hs
        rw [ih (i + 1), List.forall_mem_cons]
        have hgood : goodRule r := ⟨h1', h2', h3', hsub⟩
        constructor
        · intro hall
          exact ⟨hgood, hall⟩
        · intro hall
          exact hall.2

/-- Claim C9: `validatePolicy` accepts a policy exactly when every rule has
non-empty namespaces, plugins and subjects, with every subject carrying a
non-empty kind in {User, Group, ServiceAccount} and a non-empty name (the
errors carry the rule and subject indices by construction); and every
`validatePolicy` failure makes `ValidateConfig` fail with that error, so
a configuration containing a structurally invalid rule is rejected. -/
theorem C9_config_validation_characterization (config : ValidationConfig)
    (p : NRIValidationPolicySpec) (hp : config.policy = some p) :
    (validatePolicy p = .ok () ↔ ∀ r ∈ p.rules, goodRule r) ∧
    (∀ e, validatePolicy p = .error e →
      ValidateConfig (some config) = .error (.invalidPolicy e)) := by
  constructor
  · exact validateRules_ok_iff 0 p.rules
  · intro e he
    simp [ValidateConfig, hp, he]

/-- Claim C9 witness: a configuration whose policy has a rule with empty
namespaces is rejected with the rule-indexed error (the spec's config
validation scenario), and the characterization holds at a concrete
well-formed policy. -/
theorem C9_witness :
    ValidateConfig (some
      { policy := some ⟨true, [{ namespaces := [], plugins := [star],
                                 subjects := [⟨strLit "User", strLit "bob"⟩] }]⟩,
        restrictions := none, enableDefaultValidator := false,
        defaultValidatorConfig := none }) =
      .error (.invalidPolicy (.ruleNamespacesEmpty 0)) ∧
    validatePolicy ⟨true, [{ namespaces := [strLit "dev-"], plugins := [star],
                             subjects := [⟨strLit "User", strLit "bob"⟩] }]⟩ =
      .ok () := by
  constructor
  · exact (C9_config_validation_characterization
      { policy := some ⟨true, [{ namespaces := [], plugins := [star],
                                 subjects := [⟨strLit "User", strLit "bob"⟩] }]⟩,
        restrictions := none, enableDefaultValidator := false,
        defaultValidatorConfig := none } _ rfl).2 _ rfl
  · apply (C9_config_validation_characterization
      { policy := some ⟨true, [{ namespaces := [strLit "dev-"], plugins := [star],
                                 subjects := [⟨strLit "User", strLit "bob"⟩] }]⟩,
        restrictions := none, enableDefaultValidator := false,
        defaultValidatorConfig := none } _ rfl).1.2
    intro r hr
    rw [List.mem_singleton] at hr
    subst hr
    refine ⟨by decide, by decide, by decide, ?_⟩
    intro s hs
    rw [List.mem_singleton] at hs
    subst hs
    exact ⟨by decide, by decide, by decide⟩

end NRI
